import Mathlib

/-!
# Verification of the hierarchical consolidation and retrieval subsystem

A shallow embedding, in Lean 4, of the consolidation/retrieval core of the
`open-data-pvnet` repository:

* `src/open_data_pvnet/utils/data_downloader.py`
  (`restructure_dataset`, `merge_datasets`, `load_zarr_data_for_day`,
  `save_consolidated_zarr`, `merge_hours_to_day`, `merge_days_to_month`),
* `src/open_data_pvnet/utils/data_converters.py` (`convert_nc_to_zarr`,
  only its per-file write-with-fallback step),
* `src/open_data_pvnet/main.py` (`chunk_hours`, `archive_hours_chunk`,
  `parallel_archive`).

Pure functions are translated to Lean functions; the effectful functions are
translated to explicit state/trace-passing functions over small inductive
"world" types that enumerate the outcomes of the external effects
(file existence, store opening, group loading, write failures).  Calls into
the `xarray` / `zarr` libraries are embedded according to those libraries'
documented semantics, noted at each definition.
-/

deriving instance DecidableEq for Except

namespace OpenDataPvnet

/-- First `some` in a list of options, in list order (`none` if there is
none).  Used to model "the first exception encountered in inspection
order". -/
def firstSome {α : Type} : List (Option α) → Option α
  | [] => none
  | some a :: _ => some a
  | none :: os => firstSome os

/-! ## Dataset model (for `merge_datasets` and `restructure_dataset`)

An `xarray.Dataset` is modelled as named data variables plus named
coordinates; each variable carries its list of dimension names and an
abstract payload (`val`) that stands for its array data, so that two
variables with different contents can be told apart.  `ds.variables` in
xarray covers both data variables and coordinates; `ds.dims` is the union of
the dimension names of all variables. -/

/-- One xarray variable: its dimension names and an abstract payload
standing for its data. -/
structure DVar where
  dims : List String
  val : Int
deriving DecidableEq, Repr

/-- An xarray `Dataset`: association lists of data variables and of
coordinates (name ↦ variable).  Association order models xarray's insertion
order. -/
structure Dataset where
  data_vars : List (String × DVar)
  coords : List (String × DVar)
deriving DecidableEq, Repr

/-- Names of all variables (`ds.variables` in xarray: data variables and
coordinates). -/
def Dataset.varNames (ds : Dataset) : List String :=
  ds.data_vars.map Prod.fst ++ ds.coords.map Prod.fst

/-- Names of the coordinates (`ds.coords`). -/
def Dataset.coordNames (ds : Dataset) : List String :=
  ds.coords.map Prod.fst

/-- Dimension names of the dataset (`ds.dims`): every dimension used by some
variable. -/
def Dataset.dims (ds : Dataset) : List String :=
  ((ds.data_vars ++ ds.coords).map (fun p => p.2.dims)).flatten

/-- `ds.expand_dims(name)` for an existing scalar coordinate `name` (the
case exercised by `restructure_dataset`): the coordinate is promoted to a
dimension of size 1 and that dimension is prepended to every data
variable. -/
def Dataset.expandDims (ds : Dataset) (name : String) : Dataset :=
  { data_vars := ds.data_vars.map (fun p => (p.1, { p.2 with dims := name :: p.2.dims })),
    coords := ds.coords.map (fun p =>
      if p.1 = name then (p.1, { p.2 with dims := name :: p.2.dims }) else p) }

/-- `ds.drop_vars(name)`: remove the variable / coordinate with that
name. -/
def Dataset.dropVar (ds : Dataset) (name : String) : Dataset :=
  { data_vars := ds.data_vars.filter (fun p => p.1 != name),
    coords := ds.coords.filter (fun p => p.1 != name) }

/-- The `bnds` pruning loop of `restructure_dataset`: every variable that
has a `bnds` dimension is dropped (`for var in list(ds.variables): if
"bnds" in ds[var].dims: ds = ds.drop_vars(var)`). -/
def Dataset.dropBndsVars (ds : Dataset) : Dataset :=
  { data_vars := ds.data_vars.filter (fun p => !(p.2.dims.contains "bnds")),
    coords := ds.coords.filter (fun p => !(p.2.dims.contains "bnds")) }

/-- The name substitution of `ds.rename({"forecast_period": "step",
"forecast_reference_time": "initialization_time"})`. -/
def rKey (s : String) : String :=
  if s = "forecast_period" then "step"
  else if s = "forecast_reference_time" then "initialization_time"
  else s

/-- Apply the rename mapping to every variable name, coordinate name and
dimension name (what `Dataset.rename` does once its validity check has
passed). -/
def Dataset.applyRename (ds : Dataset) : Dataset :=
  { data_vars := ds.data_vars.map (fun p => (rKey p.1, { p.2 with dims := p.2.dims.map rKey })),
    coords := ds.coords.map (fun p => (rKey p.1, { p.2 with dims := p.2.dims.map rKey })) }

/-! ### `restructure_dataset` (data_downloader.py lines 50-82)

Embedded statement by statement:
1. `if "forecast_period" in ds.coords and "forecast_period" not in ds.dims:
   ds = ds.expand_dims("forecast_period")`
2. `if "height" in ds.coords: ds = ds.drop_vars("height")`
3. `if "bnds" in ds.dims:` drop every variable with a `bnds` dimension
4. `ds = ds.rename({"forecast_period": "step", "forecast_reference_time":
   "initialization_time"})`

Step 4 is _unconditional_; `xarray.Dataset.rename` checks each key of the
mapping and raises `ValueError("cannot rename 'k' because it is not a
variable or dimension in this dataset")` when the key is neither a variable
nor a dimension, which the embedding returns as `Except.error`. -/

/-- Statement 1 of `restructure_dataset`. -/
def expandStep (ds : Dataset) : Dataset :=
  if "forecast_period" ∈ ds.coordNames ∧ "forecast_period" ∉ ds.dims then
    ds.expandDims "forecast_period"
  else ds

/-- Statement 2 of `restructure_dataset`. -/
def dropHeightStep (ds : Dataset) : Dataset :=
  if "height" ∈ ds.coordNames then ds.dropVar "height" else ds

/-- Statement 3 of `restructure_dataset`. -/
def dropBndsStep (ds : Dataset) : Dataset :=
  if "bnds" ∈ ds.dims then ds.dropBndsVars else ds

/-- Statement 4 of `restructure_dataset`: `Dataset.rename` first validates
every key of the mapping (in mapping order) and raises for a key that is
neither a variable nor a dimension; only then does it substitute names. -/
def renameStep (ds : Dataset) : Except String Dataset :=
  if "forecast_period" ∈ ds.varNames ∨ "forecast_period" ∈ ds.dims then
    if "forecast_reference_time" ∈ ds.varNames ∨ "forecast_reference_time" ∈ ds.dims then
      Except.ok ds.applyRename
    else Except.error
      "cannot rename forecast_reference_time because it is not a variable or dimension in this dataset"
  else Except.error
    "cannot rename forecast_period because it is not a variable or dimension in this dataset"

/-- `restructure_dataset` as the composition of its four statements. -/
def restructure_dataset (ds : Dataset) : Except String Dataset :=
  renameStep (dropBndsStep (dropHeightStep (expandStep ds)))

/-- Keep only the first binding of each name in an association list (later
bindings of an already-seen name are discarded); `seen` accumulates the
names already kept. -/
def keepFirstAux (seen : List String) : List (String × DVar) → List (String × DVar)
  | [] => []
  | p :: ps =>
    if p.1 ∈ seen then keepFirstAux seen ps
    else p :: keepFirstAux (p.1 :: seen) ps

/-- Keep only the first binding of each name in an association list. -/
def keepFirst (l : List (String × DVar)) : List (String × DVar) :=
  keepFirstAux [] l

/-- `merge_datasets` (data_downloader.py lines 40-47): `xr.merge(datasets,
compat="override")` followed by logging.  Per the xarray documentation of
`compat="override"` — "skip comparing and pick variable from first dataset"
— the merged dataset holds the union of all variable and coordinate names,
and a name occurring in several datasets gets the value from the dataset
that occurs *first* in iteration order; no conflict error is ever
raised. -/
def merge_datasets (datasets : List Dataset) : Dataset :=
  { data_vars := keepFirst ((datasets.map Dataset.data_vars).flatten),
    coords := keepFirst ((datasets.map Dataset.coords).flatten) }

/-- Value of the data variable `n` after a merge (first binding wins, as in
an association-list lookup). -/
def Dataset.findVar (ds : Dataset) (n : String) : Option DVar :=
  List.lookup n ds.data_vars

/-- Value of the coordinate `n` after a merge. -/
def Dataset.findCoord (ds : Dataset) (n : String) : Option DVar :=
  List.lookup n ds.coords

/-! ## `chunk_hours` (main.py lines 218-224)

```python
def chunk_hours(start=0, end=23, chunk_size=6):
    chunks = []
    for i in range(start, end + 1, chunk_size):
        chunk_end = min(i + chunk_size - 1, end)
        chunks.append((i, chunk_end))
    return chunks
```

The Python loop steps `i` through `start, start+chunk_size, …` while
`i ≤ end`.  `chunkHoursGo` is that loop with a structural fuel argument;
`e + 1` iterations always suffice because `i` advances by `chunk_size ≥ 1`
each step (for `chunk_size = 0` Python's `range` raises `ValueError`; no
claim concerns that case). -/

/-- The loop body of `chunk_hours`; `fuel` only bounds the iteration count. -/
def chunkHoursGo (e c : Nat) : Nat → Nat → List (Nat × Nat)
  | _, 0 => []
  | i, fuel + 1 =>
    if i ≤ e then (i, min (i + c - 1) e) :: chunkHoursGo e c (i + c) fuel
    else []

/-- `chunk_hours(start, end, chunk_size)`.  The call sites use the Python
defaults `chunk_hours()` = `chunk_hours 0 23 6`. -/
def chunk_hours (start e chunk_size : Nat) : List (Nat × Nat) :=
  chunkHoursGo e chunk_size start (e + 1)

/-! ## The concurrent dispatcher (main.py lines 227-285)

`parallel_archive` submits one `archive_hours_chunk` task per hour range to
a `ThreadPoolExecutor`, calls `concurrent.futures.wait(futures)` — which
blocks until *every* task has finished, successfully or not — and then walks
`futures` in submission order re-raising the first stored exception.

The per-hour pipeline `archive_to_hf` is external I/O; a world function
`res : Nat → Option String` gives each hour's outcome (`none` = success,
`some e` = the task raises exception `e` at that hour).  A task processes
its hours strictly in increasing order and stops at its first exception;
the dispatcher's observable behaviour is the set of completed hours plus
the first exception in task-inspection order. -/

/-- One task (`archive_hours_chunk`) working through a list of hours in
order: returns the hours that completed and the first exception, if any
(hours after the failing hour are not attempted). -/
def runHours (res : Nat → Option String) : List Nat → List Nat × Option String
  | [] => ([], none)
  | h :: hs =>
    match res h with
    | some e => ([], some e)
    | none =>
      let (cs, r) := runHours res hs
      (h :: cs, r)

/-- The hours `range(start_hour, end_hour + 1)` of one chunk. -/
def hoursOfRange (r : Nat × Nat) : List Nat :=
  (List.range (r.2 + 1 - r.1)).map (fun k => r.1 + k)

/-- `archive_hours_chunk` (main.py lines 227-249) under outcome world
`res`. -/
def archive_hours_chunk (res : Nat → Option String) (r : Nat × Nat) :
    List Nat × Option String :=
  runHours res (hoursOfRange r)

/-- `parallel_archive` (main.py lines 252-285): runs one task per chunk of
`chunk_hours()`, waits for all of them, and re-raises the first exception in
submission order.  Result: (hours completed across all tasks, re-raised
exception if any). -/
def parallel_archive (res : Nat → Option String) : List Nat × Option String :=
  let outs := (chunk_hours 0 23 6).map (archive_hours_chunk res)
  ((outs.map Prod.fst).flatten, firstSome (outs.map Prod.snd))

/-! ## `save_consolidated_zarr` (data_downloader.py lines 277-323)

```python
temp_dir = output_path.parent / f"{output_path.stem}_temp"
if temp_dir.exists(): shutil.rmtree(temp_dir)
temp_dir.mkdir(parents=True, exist_ok=True)
try:
    encoding = {var: {"chunks": ..., "compressor": ...} for var in dataset.data_vars}
    dataset.to_zarr(temp_dir, mode="w", encoding=encoding, ...)
    zip_store = zarr.storage.ZipStore(str(output_path), mode="w")
    temp_store = zarr.DirectoryStore(str(temp_dir))
    try:
        zarr.copy_store(temp_store, zip_store)
    finally:
        zip_store.close()
finally:
    if temp_dir.exists(): shutil.rmtree(temp_dir)
```

The failable external steps are: building the per-variable encoding
(`dataset[var].chunks` subscripting / incompatible dtypes), the staging
`to_zarr` write, and the `copy_store` pack into the final zip.  A scenario
selects which step fails; the model tracks the staging directory and the
state of the file at `output_path`.  Note `ZipStore(output_path, mode="w")`
creates the final file *at the target path* and `copy_store` writes into it
in place — there is no rename step. -/

/-- State of the file at the final `output_path`. -/
inductive OutFile
  | absent
  /-- the zip exists but `copy_store` into it did not finish -/
  | partialArchive
  /-- the zip exists and holds the full consolidated dataset -/
  | complete
deriving DecidableEq, Repr

/-- Which external step of `save_consolidated_zarr` fails. -/
structure SaveScenario where
  /-- building the per-variable encoding raises (e.g. a variable with no
  chunk information or an incompatible dtype) -/
  encodeFails : Bool
  /-- `dataset.to_zarr` into the staging directory raises -/
  toZarrFails : Bool
  /-- `zarr.copy_store` into the final zip raises midway -/
  copyFails : Bool
deriving DecidableEq, Repr

/-- Post-state of the two files touched by `save_consolidated_zarr`. -/
structure SaveState where
  tempDirRemains : Bool
  output : OutFile
deriving DecidableEq, Repr

/-- The inner `try/finally` around `zarr.copy_store`: the ZipStore is
created at `output_path` (the file now exists, still partial), the copy
either completes or raises, and `zip_store.close()` runs either way.
Returns (raised?, state). -/
def packIntoZip (s : SaveScenario) (st : SaveState) : Bool × SaveState :=
  let st1 := { st with output := OutFile.partialArchive }
  if s.copyFails then (true, st1)
  else (false, { st1 with output := OutFile.complete })

/-- The outer `try` block of `save_consolidated_zarr`: encoding, staging
write, then the pack step. -/
def saveBody (s : SaveScenario) (st : SaveState) : Bool × SaveState :=
  if s.encodeFails then (true, st)
  else if s.toZarrFails then (true, st)
  else packIntoZip s st

/-- `save_consolidated_zarr` over a failure scenario, starting from a fresh
target (no file at `output_path`): the staging directory is (re)created,
the body runs, and the outer `finally` removes the staging directory on
every path.  Returns (raised?, final file state). -/
def save_consolidated_zarr (s : SaveScenario) : Bool × SaveState :=
  let st0 : SaveState := { tempDirRemains := true, output := OutFile.absent }
  let (raised, st1) := saveBody s st0
  (raised, { st1 with tempDirRemains := false })

/-- The per-file write of `convert_nc_to_zarr` (data_converters.py lines
43-52): try the compressed write; on `ValueError` fall back to an
uncompressed `to_zarr` for that file.  `fails` says whether the compressed
write raises. -/
inductive WriteKind
  | compressed
  | uncompressed
deriving DecidableEq, Repr

/-- `convert_nc_to_zarr`'s fallback: the only place in the repository where
an encoding failure downgrades to an uncompressed write. -/
def convert_write (fails : Bool) : WriteKind :=
  if fails then WriteKind.uncompressed else WriteKind.compressed

/-! ## Partition-key path strings

The canonical path pieces built with Python f-strings: `f"{n:02d}"` and
`str(n)`.  Python compares `str` (and `pathlib.Path`, which compares its
string form) lexicographically by code point; `charLt` is that comparison
on the underlying character lists. -/

/-- The digit character for `n % 10` (`chr(48 + n)`). -/
def digitChar (n : Nat) : Char := Char.ofNat (48 + n % 10)

/-- `f"{n:02d}"` for `n ≤ 99` (the only values formatted this way here:
months 1-12, days 1-31, hours 0-23). -/
def two (n : Nat) : String := String.mk [digitChar (n / 10), digitChar n]

/-- Python's lexicographic string comparison `s < t`, by code point. -/
def charLt : List Char → List Char → Bool
  | _, [] => false
  | [], _ :: _ => true
  | a :: as, b :: bs =>
    if a.toNat < b.toNat then true
    else if b.toNat < a.toNat then false
    else charLt as bs

/-- The daily archive path relative to the month directory, as matched by
the glob `month_dir.glob(f"*/daily/{year}-{month_str}-*.zarr.zip")` and
produced by `merge_hours_to_day`:
`f"{day:02d}/daily/{year}-{month:02d}-{day:02d}.zarr.zip"`.  All globbed
paths share the literal `month_dir` prefix, so comparing the full path
strings (what `sorted(...)` on `pathlib.Path` does) is the same as
comparing these relative paths. -/
def dailyRelPath (year month day : Nat) : String :=
  two day ++ "/daily/" ++ toString year ++ "-" ++ two month ++ "-" ++ two day ++ ".zarr.zip"

/-- `daily_output = base/year/month/day/daily/{year}-{month}-{day}.zarr.zip`
(merge_hours_to_day lines 337-340). -/
def dailyOutputPath (base : String) (year month day : Nat) : String :=
  base ++ "/" ++ toString year ++ "/" ++ two month ++ "/" ++ two day ++ "/daily/" ++
    toString year ++ "-" ++ two month ++ "-" ++ two day ++ ".zarr.zip"

/-- `monthly_output = base/year/month/monthly/{year}-{month}.zarr.zip`
(merge_days_to_month lines 431-433). -/
def monthlyOutputPath (base : String) (year month : Nat) : String :=
  base ++ "/" ++ toString year ++ "/" ++ two month ++ "/monthly/" ++
    toString year ++ "-" ++ two month ++ ".zarr.zip"

/-- Insert a day into a list of days that is already sorted by the
lexicographic order of their daily archive paths. -/
def insertByPath (year month : Nat) (d : Nat) : List Nat → List Nat
  | [] => [d]
  | e :: es =>
    if charLt (dailyRelPath year month d).data (dailyRelPath year month e).data then
      d :: e :: es
    else e :: insertByPath year month d es

/-- `sorted(Path(month_dir).glob(f"*/daily/{year}-{month_str}-*.zarr.zip"))`
(merge_days_to_month line 442): the globbed days in lexicographic order of
their full path strings.  (Insertion sort; `sorted` is a stable sort, and
on duplicate-free keys every comparison-correct sort returns the same
list.) -/
def sortDaysByPath (year month : Nat) : List Nat → List Nat
  | [] => []
  | d :: ds => insertByPath year month d (sortDaysByPath year month ds)

/-! ## `load_zarr_data_for_day` (data_downloader.py lines 194-274)

For each hour 0-23 the function builds the hourly archive path, downloads
the archive if missing, opens a `ZipStore` (tracking it in `stores`), opens
every group in it, merges and restructures them, and appends the hourly
dataset to `datasets`; *any* exception inside the per-hour `try` is caught
and the hour is skipped.  If no hour produced a dataset it raises
`ValueError("No datasets could be loaded for ...")`; otherwise it returns
`xr.concat(datasets, dim="time")`.  The `finally` block closes every
tracked store once (each `close()` wrapped in its own `try/except`).

A world function gives each hour's outcome; the embedding returns the
concatenation pieces (hour, number of time points) in iteration order,
the hours whose archives were accessed on the read path, and the per-store
close counts. -/

/-- Outcome of the per-hour body of `load_zarr_data_for_day`. -/
inductive HourOutcome
  /-- the archive is missing and not downloadable, or the `ZipStore`
  constructor raised: no store handle was opened for this hour -/
  | noStore
  /-- a store was opened but no group yielded a dataset (or merging /
  restructuring raised): the hour is skipped, the handle stays tracked -/
  | deadStore
  /-- a store was opened and a restructured hourly dataset with `timeLen`
  time points was produced -/
  | ok (timeLen : Nat)
deriving DecidableEq, Repr

/-- Did this hour open a store handle? -/
def HourOutcome.opensStore : HourOutcome → Bool
  | HourOutcome.noStore => false
  | _ => true

/-- The dataset piece contributed by this hour, if any. -/
def HourOutcome.piece (h : Nat) : HourOutcome → Option (Nat × Nat)
  | HourOutcome.ok n => some (h, n)
  | _ => none

/-- Result of `load_zarr_data_for_day`. -/
structure DayLoad where
  /-- `Except.ok pieces`: the hourly (hour, time-point count) pieces that
  `xr.concat(datasets, dim="time")` joins, in append order;
  `Except.error` models the raised `ValueError` -/
  result : Except String (List (Nat × Nat))
  /-- hour archives accessed on the read path -/
  readHours : List Nat
  /-- (hour whose store was opened, number of `close()` calls it received) -/
  storeCloses : List (Nat × Nat)
deriving DecidableEq, Repr

/-- `load_zarr_data_for_day` over an hour-outcome world `w`. -/
def load_zarr_data_for_day (w : Nat → HourOutcome) : DayLoad :=
  let hrs := List.range 24
  let pieces := hrs.filterMap (fun h => (w h).piece h)
  { result :=
      if pieces.isEmpty then Except.error "No datasets could be loaded"
      else Except.ok pieces,
    readHours := hrs,
    storeCloses := (hrs.filter (fun h => (w h).opensStore)).map (fun h => (h, 1)) }

/-- Result of a day- or month-level consolidation. -/
structure MergeOut where
  /-- the returned archive path, or the raised error -/
  result : Except String String
  /-- source archives accessed on the read path (hour numbers or day
  numbers) -/
  reads : List Nat
  /-- (source whose store was opened, number of `close()` calls) -/
  storeCloses : List (Nat × Nat)
  /-- target archives written -/
  wrote : List String
deriving DecidableEq, Repr

/-- The per-day world of `merge_hours_to_day`: whether the daily target
already exists, and each hour's outcome. -/
structure DayWorld where
  dailyExists : Bool
  hour : Nat → HourOutcome

/-- `merge_hours_to_day` (data_downloader.py lines 326-364): build the
daily output path; if it exists, return it immediately (nothing read,
nothing written); otherwise load the day via `load_zarr_data_for_day`,
create the `daily` directory and save.  `save_consolidated_zarr`'s own
failure modes are modelled separately (`save_consolidated_zarr` above); on
the success path it writes exactly the daily output. -/
def merge_hours_to_day (base : String) (year month day : Nat) (w : DayWorld) : MergeOut :=
  let out := dailyOutputPath base year month day
  if w.dailyExists then
    { result := Except.ok out, reads := [], storeCloses := [], wrote := [] }
  else
    let L := load_zarr_data_for_day w.hour
    match L.result with
    | Except.error e =>
      { result := Except.error e, reads := L.readHours,
        storeCloses := L.storeCloses, wrote := [] }
    | Except.ok _ =>
      { result := Except.ok out, reads := L.readHours,
        storeCloses := L.storeCloses, wrote := [out] }

/-! ## `merge_days_to_month` (data_downloader.py lines 421-498)

```python
if monthly_output.exists(): return monthly_output
daily_files = sorted(Path(month_dir).glob(f"*/daily/{year}-{month_str}-*.zarr.zip"))
if not daily_files: raise ValueError("No daily files found matching pattern: ...")
for daily_file in daily_files:
    try:
        store = zarr.storage.ZipStore(str(daily_file), mode="r")
        ds = xr.open_zarr(store, consolidated=True)
        daily_datasets.append(ds)
    except Exception as e:
        store.close()
        continue
if not daily_datasets: raise ValueError("No datasets could be loaded")
monthly_dataset = xr.concat(daily_datasets, dim="time")
... rechunk ... save_consolidated_zarr(monthly_dataset, monthly_output)
for ds in daily_datasets: ds.close()
return monthly_output
```

The `except` branch closes whatever the local variable `store` currently
holds: the just-created handle if `xr.open_zarr` raised, the handle of an
*earlier* file if this file's `ZipStore` constructor raised, and an unbound
local (→ `NameError`, which propagates out of the loop and the function) if
no handle was ever created.  The final `ds.close()` loop closes the xarray
datasets only: xarray does not close a caller-supplied store object
(`ZarrStore` is constructed with `close_store_on_close=False` when handed
an existing store), so it performs no `ZipStore.close()` call. -/

/-- Outcome of the per-file body of the `merge_days_to_month` loop. -/
inductive DayFileOutcome
  /-- the `ZipStore` constructor raised: no handle was created -/
  | openFail
  /-- the handle was created but `xr.open_zarr` raised -/
  | loadFail
  /-- the daily dataset was loaded, with `timeLen` time points -/
  | ok (timeLen : Nat)
deriving DecidableEq, Repr

/-- The per-month world of `merge_days_to_month`: whether the monthly
target exists, the days the glob finds (in arbitrary filesystem order), and
each daily file's outcome. -/
structure MonthWorld where
  monthlyExists : Bool
  presentDays : List Nat
  dayFile : Nat → DayFileOutcome

/-- State threaded through the `merge_days_to_month` loading loop. -/
structure MonthLoopState where
  /-- (day whose `ZipStore` was created, `close()` calls received), in
  creation order -/
  closes : List (Nat × Nat)
  /-- the Python local `store`: the most recently created handle, if any -/
  lastStore : Option Nat
  /-- the (day, time-point count) datasets appended to `daily_datasets` -/
  pieces : List (Nat × Nat)
  /-- `store.close()` was reached with `store` unbound: `NameError`
  propagates out of the loop -/
  nameError : Bool
deriving DecidableEq, Repr

/-- Add one `close()` call to the tracked handle of day `d` (first
entry). -/
def bumpClose (d : Nat) : List (Nat × Nat) → List (Nat × Nat)
  | [] => []
  | p :: ps => if p.1 = d then (p.1, p.2 + 1) :: ps else p :: bumpClose d ps

/-- The `for daily_file in daily_files` loading loop of
`merge_days_to_month`. -/
def monthLoop (f : Nat → DayFileOutcome) : List Nat → MonthLoopState → MonthLoopState
  | [], st => st
  | d :: ds, st =>
    match f d with
    | DayFileOutcome.openFail =>
      match st.lastStore with
      | none => { st with nameError := true }
      | some p => monthLoop f ds { st with closes := bumpClose p st.closes }
    | DayFileOutcome.loadFail =>
      monthLoop f ds
        { st with closes := bumpClose d (st.closes ++ [(d, 0)]), lastStore := some d }
    | DayFileOutcome.ok n =>
      monthLoop f ds
        { st with closes := st.closes ++ [(d, 0)], lastStore := some d,
                  pieces := st.pieces ++ [(d, n)] }

/-- `merge_days_to_month` over a month world.  `reads` is the list of daily
archives opened, in the order the loop visits them (the lexicographically
sorted glob). -/
def merge_days_to_month (base : String) (year month : Nat) (w : MonthWorld) : MergeOut :=
  let out := monthlyOutputPath base year month
  if w.monthlyExists then
    { result := Except.ok out, reads := [], storeCloses := [], wrote := [] }
  else
    let files := sortDaysByPath year month w.presentDays
    if files.isEmpty then
      { result := Except.error "No daily files found matching pattern",
        reads := [], storeCloses := [], wrote := [] }
    else
      let st := monthLoop w.dayFile files
        { closes := [], lastStore := none, pieces := [], nameError := false }
      if st.nameError then
        { result := Except.error "NameError: name store is not defined",
          reads := files, storeCloses := st.closes, wrote := [] }
      else if st.pieces.isEmpty then
        { result := Except.error "No datasets could be loaded",
          reads := files, storeCloses := st.closes, wrote := [] }
      else
        { result := Except.ok out, reads := files,
          storeCloses := st.closes, wrote := [out] }

/-- The (day, time-point count) pieces `xr.concat(daily_datasets,
dim="time")` joins, in append order, for a month world that reaches the
concatenation. -/
def monthConcatPieces (year month : Nat) (w : MonthWorld) : List (Nat × Nat) :=
  (monthLoop w.dayFile (sortDaysByPath year month w.presentDays)
    { closes := [], lastStore := none, pieces := [], nameError := false }).pieces

/-! ## Concrete inputs used by counterexamples and witnesses -/

/-- A minimal hourly dataset as produced by the Met Office pipeline: one
data variable over a spatial dimension, scalar `forecast_period` and
`forecast_reference_time` coordinates. -/
def exDs : Dataset :=
  { data_vars := [("t2m", { dims := ["projection_y_coordinate"], val := 7 })],
    coords := [("forecast_period", { dims := [], val := 0 }),
               ("forecast_reference_time", { dims := [], val := 1 }),
               ("projection_y_coordinate", { dims := ["projection_y_coordinate"], val := 2 })] }

/-- `restructure_dataset exDs` (computed): `forecast_period` expanded and
renamed to `step`, `forecast_reference_time` renamed to
`initialization_time`. -/
def exDsOnce : Dataset :=
  { data_vars := [("t2m", { dims := ["step", "projection_y_coordinate"], val := 7 })],
    coords := [("step", { dims := ["step"], val := 0 }),
               ("initialization_time", { dims := [], val := 1 }),
               ("projection_y_coordinate", { dims := ["projection_y_coordinate"], val := 2 })] }

/-- Two datasets that collide on the data variable `t` with different
payloads (1 in the first, 2 in the second). -/
def dsFirst : Dataset := { data_vars := [("t", { dims := ["x"], val := 1 })], coords := [] }

/-- See `dsFirst`. -/
def dsSecond : Dataset := { data_vars := [("t", { dims := ["x"], val := 2 })], coords := [] }

/-- Month world where both daily archives load successfully. -/
def leakWorld : MonthWorld :=
  { monthlyExists := false, presentDays := [1, 2], dayFile := fun _ => DayFileOutcome.ok 24 }

/-- Month world where day 1 loads and the `ZipStore` constructors of days 2
and 3 raise: each `except` branch then closes day 1's handle again. -/
def doubleCloseWorld : MonthWorld :=
  { monthlyExists := false, presentDays := [1, 2, 3],
    dayFile := fun d => if d = 1 then DayFileOutcome.ok 24 else DayFileOutcome.openFail }

/-- Day world with the daily target already present. -/
def dayWorldExisting : DayWorld :=
  { dailyExists := true, hour := fun _ => HourOutcome.noStore }

/-- Month world with the monthly target already present. -/
def monthWorldExisting : MonthWorld :=
  { monthlyExists := true, presentDays := [1], dayFile := fun _ => DayFileOutcome.ok 24 }

/-- Hour world where exactly hours 0-17 are loadable, each with one time
point. -/
def hoursWorld18 : Nat → HourOutcome :=
  fun h => if h < 18 then HourOutcome.ok 1 else HourOutcome.noStore

/-- Per-hour outcomes where hour 7 raises `ValueError("boom")` and every
other hour succeeds. -/
def boomAtSeven : Nat → Option String :=
  fun h => if h = 7 then some "boom" else none

/-- Month world with days 3, 12 and 25 present, discovered by the glob in
non-sorted order. -/
def monthWorld3Days : MonthWorld :=
  { monthlyExists := false, presentDays := [12, 3, 25],
    dayFile := fun _ => DayFileOutcome.ok 24 }

/-!
# Theorems

Helper lemmas first, then one theorem per claim (with its counterexample
and witness where required).
-/

/-! ### Option and association-list helpers -/

theorem firstSome_cons {α : Type} (o : Option α) (os : List (Option α)) :
    firstSome (o :: os) = match o with | some a => some a | none => firstSome os := by
  cases o <;> rfl

theorem firstSome_eq_none_iff {α : Type} (os : List (Option α)) :
    firstSome os = none ↔ ∀ o ∈ os, o = none := by
  induction os with
  | nil => simp [firstSome]
  | cons o os ih => cases o <;> simp [firstSome, ih]

theorem firstSome_append_some {α : Type} (os : List (Option α))
    (hos : ∀ o ∈ os, o = none) (e : α) (os' : List (Option α)) :
    firstSome (os ++ some e :: os') = some e := by
  induction os with
  | nil => rfl
  | cons o os ih =>
    have ho : o = none := hos o (by simp)
    subst ho
    simpa [firstSome] using ih (fun o hmem => hos o (by simp [hmem]))

theorem lookup_keepFirstAux (n : String) (seen : List String) (l : List (String × DVar)) :
    List.lookup n (keepFirstAux seen l) =
      if n ∈ seen then none else List.lookup n l := by
  induction l generalizing seen with
  | nil => simp [keepFirstAux]
  | cons p ps ih =>
    by_cases hp : p.1 ∈ seen
    · rw [keepFirstAux, if_pos hp, ih]
      by_cases hn : n ∈ seen
      · simp [hn]
      · have hne : ¬(n == p.1) := by
          simp only [beq_iff_eq]
          intro he; exact hn (he ▸ hp)
        simp [hn, List.lookup, hne]
    · rw [keepFirstAux, if_neg hp]
      by_cases hn : n = p.1
      · subst hn
        simp [List.lookup, ih, hp]
      · have hne : ¬(n == p.1) := by simp [hn]
        by_cases hseen : n ∈ seen
        · simp [List.lookup, hne, ih, hseen, hn]
        · simp [List.lookup, hne, ih, hseen, hn]

theorem lookup_keepFirst (n : String) (l : List (String × DVar)) :
    List.lookup n (keepFirst l) = List.lookup n l := by
  simp [keepFirst, lookup_keepFirstAux]

theorem lookup_append (n : String) (l₁ l₂ : List (String × DVar)) :
    List.lookup n (l₁ ++ l₂) =
      match List.lookup n l₁ with
      | some v => some v
      | none => List.lookup n l₂ := by
  induction l₁ with
  | nil => simp [List.lookup]
  | cons p ps ih =>
    by_cases h : n == p.1
    · simp [List.lookup, h]
    · simp [List.lookup, h, ih]

theorem lookup_flatten_eq_firstSome (n : String) (ls : List (List (String × DVar))) :
    List.lookup n ls.flatten = firstSome (ls.map (fun l => List.lookup n l)) := by
  induction ls with
  | nil => rfl
  | cons l ls ih =>
    rw [List.flatten_cons, lookup_append, List.map_cons, firstSome_cons, ih]
    cases List.lookup n l <;> rfl

/-! ### C2: consolidation short-circuits when the target archive exists -/

/-- C2: if the daily (resp. monthly) target archive already exists,
`merge_hours_to_day` (resp. `merge_days_to_month`) returns that path
without touching any source archive — no reads, no opened stores, no
writes. -/
theorem consolidation_skips_when_target_exists
    (base : String) (year month day : Nat) (wd : DayWorld) (wm : MonthWorld)
    (hd : wd.dailyExists = true) (hm : wm.monthlyExists = true) :
    merge_hours_to_day base year month day wd =
      { result := Except.ok (dailyOutputPath base year month day),
        reads := [], storeCloses := [], wrote := [] } ∧
    merge_days_to_month base year month wm =
      { result := Except.ok (monthlyOutputPath base year month),
        reads := [], storeCloses := [], wrote := [] } := by
  constructor
  · simp [merge_hours_to_day, hd]
  · simp [merge_days_to_month, hm]

/-- Witness for C2 at concrete worlds with the targets present. -/
theorem consolidation_skips_when_target_exists_witness :
    dayWorldExisting.dailyExists = true ∧ monthWorldExisting.monthlyExists = true ∧
    merge_hours_to_day "data" 2024 1 5 dayWorldExisting =
      { result := Except.ok (dailyOutputPath "data" 2024 1 5),
        reads := [], storeCloses := [], wrote := [] } :=
  ⟨rfl, rfl,
    (consolidation_skips_when_target_exists "data" 2024 1 5 dayWorldExisting
      monthWorldExisting rfl rfl).1⟩

/-! ### C6: the "override" merge picks the earliest dataset, not the latest -/

/-- C6 counterexample: `dsFirst` and `dsSecond` collide on variable `t`;
the merged value is the one from `dsFirst` — the dataset encountered
*earlier* in iteration order — refuting "later wins". -/
theorem merge_datasets_later_wins_cex :
    (merge_datasets [dsFirst, dsSecond]).findVar "t" = some { dims := ["x"], val := 1 } ∧
    (merge_datasets [dsFirst, dsSecond]).findVar "t" ≠ dsSecond.findVar "t" ∧
    dsSecond.findVar "t" = some { dims := ["x"], val := 2 } := by
  refine ⟨rfl, ?_, rfl⟩
  intro h
  simp [merge_datasets, dsFirst, dsSecond, Dataset.findVar, keepFirst, keepFirstAux,
    List.lookup] at h

/-- C6 amended: `xr.merge(datasets, compat="override")` resolves every name
collision in favour of the dataset encountered *first* in iteration order
(for data variables and coordinates alike), and raises no error — the
merge is a total function whose lookups equal the first hit across the
inputs. -/
theorem merge_datasets_first_wins (datasets : List Dataset) (n : String) :
    (merge_datasets datasets).findVar n =
      firstSome (datasets.map (fun ds => ds.findVar n)) ∧
    (merge_datasets datasets).findCoord n =
      firstSome (datasets.map (fun ds => ds.findCoord n)) := by
  constructor
  · show List.lookup n (keepFirst (datasets.map Dataset.data_vars).flatten) = _
    rw [lookup_keepFirst, lookup_flatten_eq_firstSome, List.map_map]
    rfl
  · show List.lookup n (keepFirst (datasets.map Dataset.coords).flatten) = _
    rw [lookup_keepFirst, lookup_flatten_eq_firstSome, List.map_map]
    rfl

/-! ### C7: the two-phase write is not atomic at the pack step -/

/-- C7 counterexample: when `zarr.copy_store` into the final zip fails, the
call raises *and* a partially-written archive remains at the target path
(the `ZipStore` was created at `output_path` itself; only the staging
directory is cleaned up). -/
theorem save_partial_archive_on_pack_failure_cex :
    (save_consolidated_zarr { encodeFails := false, toZarrFails := false, copyFails := true }).1
      = true ∧
    (save_consolidated_zarr { encodeFails := false, toZarrFails := false, copyFails := true }).2
      = { tempDirRemains := false, output := OutFile.partialArchive } := by
  exact ⟨rfl, rfl⟩

/-- C7 amended: the staging directory is removed on every exit path, and a
failure *before* the pack step leaves nothing at the target path; but the
pack step itself is not atomic — a failure during the copy into the final
zip leaves a partially-written archive at the target path. -/
theorem save_consolidated_zarr_two_phase (s : SaveScenario) :
    (save_consolidated_zarr s).2.tempDirRemains = false ∧
    ((save_consolidated_zarr s).1 = true → s.copyFails = false →
      (save_consolidated_zarr s).2.output = OutFile.absent) ∧
    (s.encodeFails = false → s.toZarrFails = false → s.copyFails = true →
      (save_consolidated_zarr s).1 = true ∧
      (save_consolidated_zarr s).2.output = OutFile.partialArchive) := by
  rcases s with ⟨e, t, c⟩
  cases e <;> cases t <;> cases c <;>
    simp [save_consolidated_zarr, saveBody, packIntoZip]

/-- Witness for C7's amended theorem at the pack-failure scenario. -/
theorem save_consolidated_zarr_two_phase_witness :
    (save_consolidated_zarr { encodeFails := true, toZarrFails := false, copyFails := false }).1
      = true ∧
    (save_consolidated_zarr { encodeFails := true, toZarrFails := false, copyFails := false
      }).2.output = OutFile.absent :=
  ⟨rfl,
    (save_consolidated_zarr_two_phase
      { encodeFails := true, toZarrFails := false, copyFails := false }).2.1 rfl rfl⟩

/-! ### C9: an encoding failure aborts the consolidation write -/

/-- C9 counterexample: with the per-variable encoding step failing, the
whole `save_consolidated_zarr` call raises and nothing at all is written —
there is no fallback to an uncompressed write for that call. -/
theorem save_encoding_failure_no_fallback_cex :
    (save_consolidated_zarr { encodeFails := true, toZarrFails := false, copyFails := true }).1
      = true ∧
    (save_consolidated_zarr { encodeFails := true, toZarrFails := false, copyFails := true
      }).2.output = OutFile.absent := by
  exact ⟨rfl, rfl⟩

/-- C9 amended: in the consolidation WRITE step encoding is built per data
variable, but an encoding failure is fatal to the whole call: the
exception propagates (staging cleaned, nothing written at the target).
The fallback to an uncompressed write exists only in the NetCDF→Zarr
conversion step (`convert_nc_to_zarr`). -/
theorem save_encoding_failure_aborts (s : SaveScenario) (h : s.encodeFails = true) :
    (save_consolidated_zarr s).1 = true ∧
    (save_consolidated_zarr s).2.output = OutFile.absent ∧
    (save_consolidated_zarr s).2.tempDirRemains = false ∧
    convert_write true = WriteKind.uncompressed := by
  rcases s with ⟨e, t, c⟩
  cases e
  · cases h
  · cases t <;> cases c <;>
      simp [save_consolidated_zarr, saveBody, packIntoZip, convert_write]

/-- Witness for C9's amended theorem. -/
theorem save_encoding_failure_aborts_witness :
    (save_consolidated_zarr { encodeFails := true, toZarrFails := true, copyFails := false }).1
      = true ∧
    (save_consolidated_zarr { encodeFails := true, toZarrFails := true, copyFails := false
      }).2.output = OutFile.absent :=
  ⟨(save_encoding_failure_aborts
      { encodeFails := true, toZarrFails := true, copyFails := false } rfl).1,
   (save_encoding_failure_aborts
      { encodeFails := true, toZarrFails := true, copyFails := false } rfl).2.1⟩

/-! ### C8: store handles are not closed exactly once in `merge_days_to_month` -/

/-- C8 (code bug): in `merge_days_to_month`, a daily archive that loads
successfully has its `ZipStore` handle closed **zero** times (the final
`ds.close()` loop does not close caller-supplied stores), and when a later
file's `ZipStore` constructor raises, the `except` branch closes the
*previous* file's still-in-use handle — here day 1's handle receives two
`close()` calls.  Both runs contradict "closed exactly once on every exit
path". -/
theorem merge_days_to_month_store_close_bug :
    ((merge_days_to_month "data" 2024 1 leakWorld).result
        = Except.ok (monthlyOutputPath "data" 2024 1) ∧
      (merge_days_to_month "data" 2024 1 leakWorld).storeCloses = [(1, 0), (2, 0)]) ∧
    (merge_days_to_month "data" 2024 1 doubleCloseWorld).storeCloses = [(1, 2)] := by
  refine ⟨⟨?_, ?_⟩, ?_⟩ <;> rfl

/-! ### C4: `chunk_hours` partitions the hour range

The one structural lemma below establishes, for the loop
`chunkHoursGo e c i fuel` (with enough fuel and `c ≥ 1`):
coverage of `[i, e]`, per-chunk bounds, pairwise disjointness in
increasing order, contiguity of consecutive chunks, and fullness of every
chunk but the last. -/

theorem chunkHoursGo_eq_nil (e c i : Nat) (hi : e < i) :
    ∀ fuel, chunkHoursGo e c i fuel = [] := by
  intro fuel
  cases fuel with
  | zero => rfl
  | succ f => simp [chunkHoursGo, Nat.not_le.mpr hi]

theorem chunkHoursGo_spec (e c : Nat) (hc : 1 ≤ c) :
    ∀ fuel i, e + 1 ≤ i + fuel →
      (∀ h, i ≤ h → h ≤ e →
        ∃ p, p ∈ chunkHoursGo e c i fuel ∧ p.1 ≤ h ∧ h ≤ p.2) ∧
      (∀ p, p ∈ chunkHoursGo e c i fuel →
        i ≤ p.1 ∧ p.1 ≤ p.2 ∧ p.2 ≤ e ∧ p.2 + 1 ≤ p.1 + c) ∧
      List.Pairwise (fun p q => p.2 < q.1) (chunkHoursGo e c i fuel) ∧
      List.Chain' (fun p q => q.1 = p.2 + 1) (chunkHoursGo e c i fuel) ∧
      (∀ p, p ∈ (chunkHoursGo e c i fuel).dropLast → p.2 + 1 = p.1 + c) := by
  intro fuel
  induction fuel with
  | zero =>
    intro i hfuel
    refine ⟨fun h hih hhe => absurd (Nat.le_trans hih hhe) (by omega), ?_, ?_, ?_, ?_⟩ <;>
      simp [chunkHoursGo]
  | succ f ih =>
    intro i hfuel
    by_cases hi : i ≤ e
    · have hgo : chunkHoursGo e c i (f + 1) =
          (i, min (i + c - 1) e) :: chunkHoursGo e c (i + c) f := by
        simp [chunkHoursGo, hi]
      have hm1 : min (i + c - 1) e ≤ i + c - 1 := Nat.min_le_left _ _
      have hm2 : min (i + c - 1) e ≤ e := Nat.min_le_right _ _
      have hm3 : i ≤ min (i + c - 1) e := Nat.le_min.mpr ⟨by omega, hi⟩
      have hmcases : min (i + c - 1) e = i + c - 1 ∨ min (i + c - 1) e = e := by
        rcases Nat.le_total (i + c - 1) e with h1 | h1
        · exact Or.inl (Nat.min_eq_left h1)
        · exact Or.inr (Nat.min_eq_right h1)
      have ihspec := ih (i + c) (by omega)
      obtain ⟨ihcov, ihbound, ihpair, ihchain, ihfull⟩ := ihspec
      rw [hgo]
      refine ⟨?_, ?_, ?_, ?_, ?_⟩
      · -- coverage
        intro h hih hhe
        by_cases hhm : h ≤ min (i + c - 1) e
        · exact ⟨(i, min (i + c - 1) e), by simp, hih, hhm⟩
        · have hnext : i + c ≤ h := by omega
          obtain ⟨p, hp, hp1, hp2⟩ := ihcov h hnext hhe
          exact ⟨p, by simp [hp], hp1, hp2⟩
      · -- bounds
        intro p hp
        rcases List.mem_cons.mp hp with hph | hpt
        · subst hph; exact ⟨Nat.le_refl i, hm3, hm2, by omega⟩
        · obtain ⟨h1, h2, h3, h4⟩ := ihbound p hpt
          exact ⟨by omega, h2, h3, h4⟩
      · -- pairwise disjoint, increasing
        refine List.pairwise_cons.mpr ⟨fun q hq => ?_, ihpair⟩
        have := (ihbound q hq).1
        omega
      · -- contiguity
        by_cases hnext : i + c ≤ e
        · have hf1 : 1 ≤ f := by omega
          obtain ⟨f', rfl⟩ : ∃ f', f = f' + 1 := ⟨f - 1, by omega⟩
          have hgo2 : chunkHoursGo e c (i + c) (f' + 1) =
              (i + c, min (i + c + c - 1) e) :: chunkHoursGo e c (i + c + c) f' := by
            simp [chunkHoursGo, hnext]
          rw [hgo2]
          refine List.chain'_cons.mpr ⟨by omega, ?_⟩
          rw [← hgo2]
          exact ihchain
        · rw [chunkHoursGo_eq_nil e c (i + c) (by omega) f]
          simp
      · -- every chunk but the last is full
        intro p hp
        rcases hrest : chunkHoursGo e c (i + c) f with _ | ⟨q, rest⟩
        · rw [hrest] at hp
          simp at hp
        · have hne : chunkHoursGo e c (i + c) f ≠ [] := by simp [hrest]
          have hnext : i + c ≤ e := by
            by_contra hcon
            exact hne (chunkHoursGo_eq_nil e c (i + c) (by omega) f)
          rw [List.dropLast_cons_of_ne_nil (hrest ▸ hne)] at hp
          rcases List.mem_cons.mp hp with hph | hpt
          · subst hph
            omega
          · exact ihfull p hpt
    · rw [chunkHoursGo_eq_nil e c i (by omega) (f + 1)]
      refine ⟨fun h hih hhe => absurd (Nat.le_trans hih hhe) hi, ?_, ?_, ?_, ?_⟩ <;> simp

/-- Any two members of a pairwise-disjoint chunk list that both contain an
hour are equal. -/
theorem pairwise_disjoint_unique {L : List (Nat × Nat)}
    (hpair : List.Pairwise (fun p q => p.2 < q.1) L) (h : Nat) :
    ∀ p q, p ∈ L → q ∈ L → p.1 ≤ h → h ≤ p.2 → q.1 ≤ h → h ≤ q.2 → p = q := by
  induction L with
  | nil => intro p q hp; simp at hp
  | cons a L ih =>
    obtain ⟨ha, hL⟩ := List.pairwise_cons.mp hpair
    intro p q hp hq hp1 hp2 hq1 hq2
    rcases List.mem_cons.mp hp with hpa | hpL <;> rcases List.mem_cons.mp hq with hqa | hqL
    · rw [hpa, hqa]
    · subst hpa; have := ha q hqL; omega
    · subst hqa; have := ha p hpL; omega
    · exact ih hL p q hpL hqL hp1 hp2 hq1 hq2

/-- C4: for every chunk size `c ≥ 1`, `chunk_hours 0 23 c` is a list of
contiguous `(start, end)` ranges that covers every hour 0-23 exactly once,
each range holding at most `c` hours, in strictly increasing
non-overlapping order, with every range but the last exactly `c` hours
long.  (`chunk_hours` is a pure Lean function, hence deterministic.) -/
theorem chunk_hours_partitions (c : Nat) (hc : 1 ≤ c) :
    (∀ h : Nat, h ≤ 23 → ∃ p, p ∈ chunk_hours 0 23 c ∧ p.1 ≤ h ∧ h ≤ p.2) ∧
    (∀ (h : Nat) (p q : Nat × Nat), p ∈ chunk_hours 0 23 c → q ∈ chunk_hours 0 23 c →
      p.1 ≤ h → h ≤ p.2 → q.1 ≤ h → h ≤ q.2 → p = q) ∧
    (∀ p, p ∈ chunk_hours 0 23 c → p.1 ≤ p.2 ∧ p.2 ≤ 23 ∧ p.2 + 1 ≤ p.1 + c) ∧
    List.Pairwise (fun p q => p.2 < q.1) (chunk_hours 0 23 c) ∧
    List.Chain' (fun p q => q.1 = p.2 + 1) (chunk_hours 0 23 c) ∧
    (∀ p, p ∈ (chunk_hours 0 23 c).dropLast → p.2 + 1 = p.1 + c) := by
  obtain ⟨hcov, hbound, hpair, hchain, hfull⟩ :=
    chunkHoursGo_spec 23 c hc 24 0 (by omega)
  refine ⟨fun h hh => hcov h (Nat.zero_le h) hh,
    fun h p q hp hq => pairwise_disjoint_unique hpair h p q hp hq,
    fun p hp => ?_, hpair, hchain, hfull⟩
  obtain ⟨_, h2, h3, h4⟩ := hbound p hp
  exact ⟨h2, h3, h4⟩

/-- Witness for C4 at the default chunk size 6. -/
theorem chunk_hours_partitions_witness :
    1 ≤ 6 ∧ (∀ h : Nat, h ≤ 23 → ∃ p, p ∈ chunk_hours 0 23 6 ∧ p.1 ≤ h ∧ h ≤ p.2) :=
  ⟨by decide, (chunk_hours_partitions 6 (by decide)).1⟩

/-! ### C5: the dispatcher waits for all tasks and re-raises the first
exception in task-inspection order -/

/-- C5: `parallel_archive` (i) retains the completed hours of *every*
submitted range — a failure in one range does not stop the others, because
`concurrent.futures.wait` blocks until all tasks finish; (ii) when the
tasks before range `r` (in submission order) raise nothing and `r`'s task
raises `e`, the overall call re-raises exactly `e`; (iii) the call
succeeds iff no task raised. -/
theorem parallel_archive_waits_and_reraises_first (res : Nat → Option String) :
    (∀ r, r ∈ chunk_hours 0 23 6 →
      ∀ h, h ∈ (archive_hours_chunk res r).1 → h ∈ (parallel_archive res).1) ∧
    (∀ (l₁ : List (Nat × Nat)) (r : Nat × Nat) (l₂ : List (Nat × Nat)),
      chunk_hours 0 23 6 = l₁ ++ r :: l₂ →
      (∀ r', r' ∈ l₁ → (archive_hours_chunk res r').2 = none) →
      ∀ e, (archive_hours_chunk res r).2 = some e →
      (parallel_archive res).2 = some e) ∧
    ((parallel_archive res).2 = none ↔
      ∀ r ∈ chunk_hours 0 23 6, (archive_hours_chunk res r).2 = none) := by
  refine ⟨?_, ?_, ?_⟩
  · intro r hr h hh
    show h ∈ (((chunk_hours 0 23 6).map (archive_hours_chunk res)).map Prod.fst).flatten
    rw [List.mem_flatten]
    exact ⟨(archive_hours_chunk res r).1, by
      simp only [List.map_map, List.mem_map]
      exact ⟨r, hr, rfl⟩, hh⟩
  · intro l₁ r l₂ hsplit hnone e he
    show firstSome (((chunk_hours 0 23 6).map (archive_hours_chunk res)).map Prod.snd) = some e
    rw [hsplit]
    simp only [List.map_append, List.map_cons, List.map_map]
    rw [he]
    exact firstSome_append_some _ (by
      intro o ho
      simp only [List.mem_map, Function.comp] at ho
      obtain ⟨r', hr', rfl⟩ := ho
      exact hnone r' hr') e _
  · show firstSome (((chunk_hours 0 23 6).map (archive_hours_chunk res)).map Prod.snd) = none ↔ _
    rw [firstSome_eq_none_iff]
    constructor
    · intro hall r hr
      exact hall _ (by
        simp only [List.map_map, List.mem_map]
        exact ⟨r, hr, rfl⟩)
    · intro hall o ho
      simp only [List.map_map, List.mem_map, Function.comp] at ho
      obtain ⟨r, hr, rfl⟩ := ho
      exact hall r hr

/-- Witness for C5: with hour 7 raising `"boom"` (inside range (6,11), the
second of the four submitted ranges), the overall call re-raises `"boom"`
and hours of the other ranges — e.g. 13 from range (12,17), and all of
range (0,5) — still complete. -/
theorem parallel_archive_witness :
    (parallel_archive boomAtSeven).2 = some "boom" ∧
    13 ∈ (parallel_archive boomAtSeven).1 :=
  ⟨(parallel_archive_waits_and_reraises_first boomAtSeven).2.1
      [(0, 5)] (6, 11) [(12, 17), (18, 23)] (by decide)
      (by intro r' hr'; fin_cases hr'; decide) "boom" (by decide),
   (parallel_archive_waits_and_reraises_first boomAtSeven).1
      (12, 17) (by decide) 13 (by decide)⟩

/-! ### C1: `restructure_dataset` is not idempotent

The three guarded steps (expand `forecast_period`, drop `height`, drop
`bnds` variables) are indeed no-ops when their names are absent, but the
final `rename` is unconditional, and `xarray.Dataset.rename` raises for a
missing key.  After one successful application neither `forecast_period`
nor `forecast_reference_time` survives (every occurrence was renamed), so
the second application always raises. -/

theorem rKey_ne_fp (s : String) : rKey s ≠ "forecast_period" := by
  unfold rKey
  split
  · decide
  · split
    · decide
    · assumption

theorem varNames_applyRename (ds : Dataset) :
    (Dataset.applyRename ds).varNames = ds.varNames.map rKey := by
  simp only [Dataset.applyRename, Dataset.varNames, List.map_map, List.map_append]
  rfl

theorem dims_applyRename (ds : Dataset) :
    (Dataset.applyRename ds).dims = ds.dims.map rKey := by
  simp only [Dataset.applyRename, Dataset.dims, List.map_map, ← List.map_append,
    List.map_flatten]
  rfl

theorem fp_not_mem_map_rKey (l : List String) :
    "forecast_period" ∉ l.map rKey := by
  intro hmem
  obtain ⟨s, _, hs⟩ := List.mem_map.mp hmem
  exact rKey_ne_fp s hs

theorem coordNames_subset_varNames (ds : Dataset) :
    ∀ a, a ∈ ds.coordNames → a ∈ ds.varNames := by
  intro a ha
  exact List.mem_append.mpr (Or.inr ha)

theorem varNames_dropVar_subset (ds : Dataset) (n a : String) :
    a ∈ (ds.dropVar n).varNames → a ∈ ds.varNames := by
  simp only [Dataset.dropVar, Dataset.varNames, List.mem_append, List.mem_map]
  rintro (⟨p, hp, rfl⟩ | ⟨p, hp, rfl⟩)
  · exact Or.inl ⟨p, List.mem_of_mem_filter hp, rfl⟩
  · exact Or.inr ⟨p, List.mem_of_mem_filter hp, rfl⟩

theorem varNames_dropBnds_subset (ds : Dataset) (a : String) :
    a ∈ ds.dropBndsVars.varNames → a ∈ ds.varNames := by
  simp only [Dataset.dropBndsVars, Dataset.varNames, List.mem_append, List.mem_map]
  rintro (⟨p, hp, rfl⟩ | ⟨p, hp, rfl⟩)
  · exact Or.inl ⟨p, List.mem_of_mem_filter hp, rfl⟩
  · exact Or.inr ⟨p, List.mem_of_mem_filter hp, rfl⟩

theorem dims_dropVar_subset (ds : Dataset) (n a : String) :
    a ∈ (ds.dropVar n).dims → a ∈ ds.dims := by
  simp only [Dataset.dropVar, Dataset.dims, List.mem_flatten, List.mem_map,
    List.mem_append]
  rintro ⟨l, ⟨p, hp | hp, rfl⟩, hal⟩
  · exact ⟨p.2.dims, ⟨p, Or.inl (List.mem_of_mem_filter hp), rfl⟩, hal⟩
  · exact ⟨p.2.dims, ⟨p, Or.inr (List.mem_of_mem_filter hp), rfl⟩, hal⟩

theorem dims_dropBnds_subset (ds : Dataset) (a : String) :
    a ∈ ds.dropBndsVars.dims → a ∈ ds.dims := by
  simp only [Dataset.dropBndsVars, Dataset.dims, List.mem_flatten, List.mem_map,
    List.mem_append]
  rintro ⟨l, ⟨p, hp | hp, rfl⟩, hal⟩
  · exact ⟨p.2.dims, ⟨p, Or.inl (List.mem_of_mem_filter hp), rfl⟩, hal⟩
  · exact ⟨p.2.dims, ⟨p, Or.inr (List.mem_of_mem_filter hp), rfl⟩, hal⟩

/-- A successful rename leaves no `forecast_period` occurrence behind. -/
theorem renameStep_ok_no_fp (x ds' : Dataset)
    (h : renameStep x = Except.ok ds') :
    "forecast_period" ∉ ds'.varNames ∧ "forecast_period" ∉ ds'.dims := by
  unfold renameStep at h
  split at h
  · split at h
    · obtain rfl : _ = ds' := Except.ok.inj h
      constructor
      · rw [varNames_applyRename]
        exact fp_not_mem_map_rKey _
      · rw [dims_applyRename]
        exact fp_not_mem_map_rKey _
    · cases h
  · cases h

/-- Whatever dataset `restructure_dataset` succeeds on, the result carries
no `forecast_period` variable, coordinate or dimension. -/
theorem restructure_ok_no_fp (ds ds' : Dataset)
    (h : restructure_dataset ds = Except.ok ds') :
    "forecast_period" ∉ ds'.varNames ∧ "forecast_period" ∉ ds'.dims :=
  renameStep_ok_no_fp _ ds' h

/-- C1 amended: `restructure_dataset` is *not* idempotent — whenever a
first application succeeds, a second application raises `ValueError`
(`rename` is unconditional and `forecast_period` is gone after the first
pass; the guarded expand/drop steps are no-ops for absent names, but the
rename step errors for absent names). -/
theorem restructure_dataset_second_apply_errors (ds ds' : Dataset)
    (h : restructure_dataset ds = Except.ok ds') :
    restructure_dataset ds' =
      Except.error
        "cannot rename forecast_period because it is not a variable or dimension in this dataset" := by
  obtain ⟨hvar, hdim⟩ := restructure_ok_no_fp ds ds' h
  have hcoord : "forecast_period" ∉ ds'.coordNames := fun hc =>
    hvar (coordNames_subset_varNames ds' _ hc)
  have h1 : expandStep ds' = ds' := by
    unfold expandStep
    rw [if_neg (by intro hcon; exact hcoord hcon.1)]
  have hvar2 : "forecast_period" ∉ (dropHeightStep ds').varNames := by
    unfold dropHeightStep
    split
    · exact fun hm => hvar (varNames_dropVar_subset ds' "height" _ hm)
    · exact hvar
  have hdim2 : "forecast_period" ∉ (dropHeightStep ds').dims := by
    unfold dropHeightStep
    split
    · exact fun hm => hdim (dims_dropVar_subset ds' "height" _ hm)
    · exact hdim
  have hvar3 : "forecast_period" ∉ (dropBndsStep (dropHeightStep ds')).varNames := by
    unfold dropBndsStep
    split
    · exact fun hm => hvar2 (varNames_dropBnds_subset _ _ hm)
    · exact hvar2
  have hdim3 : "forecast_period" ∉ (dropBndsStep (dropHeightStep ds')).dims := by
    unfold dropBndsStep
    split
    · exact fun hm => hdim2 (dims_dropBnds_subset _ _ hm)
    · exact hdim2
  unfold restructure_dataset
  rw [h1]
  unfold renameStep
  rw [if_neg (by rintro (hcon | hcon); exact hvar3 hcon; exact hdim3 hcon)]

/-- C1 counterexample: on a typical hourly dataset the first application of
`restructure_dataset` succeeds, and the second raises — so
`restructure(restructure(ds)) ≠ restructure(ds)` and the rename step is
not a no-op for absent coordinates. -/
theorem restructure_dataset_not_idempotent_cex :
    restructure_dataset exDs = Except.ok exDsOnce ∧
    restructure_dataset exDsOnce =
      Except.error
        "cannot rename forecast_period because it is not a variable or dimension in this dataset" := by
  constructor <;> decide

/-- Witness for C1's amended theorem at the concrete dataset `exDs`. -/
theorem restructure_dataset_second_apply_errors_witness :
    restructure_dataset exDs = Except.ok exDsOnce ∧
    restructure_dataset exDsOnce =
      Except.error
        "cannot rename forecast_period because it is not a variable or dimension in this dataset" ∧
    (restructure_dataset exDs).bind restructure_dataset ≠ restructure_dataset exDs :=
  ⟨by decide,
   restructure_dataset_second_apply_errors exDs exDsOnce (by decide),
   by decide⟩

/-! ### C3: day-level consolidation tolerates missing hours, fails on zero -/

/-- `true` iff the hour produced a dataset. -/
def HourOutcome.isLoaded : HourOutcome → Bool
  | HourOutcome.ok _ => true
  | _ => false

/-- Number of the 24 hours whose archives loaded. -/
def okHours (w : Nat → HourOutcome) : Nat :=
  ((List.range 24).filter (fun h => (w h).isLoaded)).length

theorem length_pieces_eq_countLoaded (w : Nat → HourOutcome) (l : List Nat) :
    (l.filterMap (fun h => (w h).piece h)).length =
      (l.filter (fun h => (w h).isLoaded)).length := by
  induction l with
  | nil => rfl
  | cons h l ih =>
    simp only [List.filterMap_cons, List.filter_cons]
    simp only [HourOutcome.piece, HourOutcome.isLoaded] at ih ⊢
    rcases w h with _ | _ | n <;> simp [ih]

theorem mem_pieces_ok (w : Nat → HourOutcome) (l : List Nat) (p : Nat × Nat)
    (hp : p ∈ l.filterMap (fun h => (w h).piece h)) :
    w p.1 = HourOutcome.ok p.2 := by
  obtain ⟨h, _, hph⟩ := List.mem_filterMap.mp hp
  rcases hw : w h with _ | _ | n <;> rw [hw] at hph <;>
    simp [HourOutcome.piece] at hph
  obtain ⟨rfl, rfl⟩ := hph
  exact hw

theorem sum_ones (L : List (Nat × Nat)) (h1 : ∀ p ∈ L, p.2 = 1) :
    (L.map Prod.snd).sum = L.length := by
  induction L with
  | nil => rfl
  | cons p L ih =>
    have hp := h1 p (by simp)
    simp [hp, ih (fun q hq => h1 q (by simp [hq])), Nat.add_comm]

/-- C3: with `k` of the 24 hourly archives loadable, each contributing one
time point: if `k ≥ 1` the day loads into exactly `k` concatenated time
points and the day-level consolidation succeeds; if `k = 0` the load
raises the no-source error (`ValueError("No datasets could be loaded
...")`, the spec's `NoSourceDataError`). -/
theorem day_consolidation_partial_hours (base : String) (year month day : Nat)
    (w : Nat → HourOutcome)
    (hone : ∀ h n, w h = HourOutcome.ok n → n = 1) :
    (1 ≤ okHours w →
      ∃ pieces, (load_zarr_data_for_day w).result = Except.ok pieces ∧
        pieces.length = okHours w ∧ (pieces.map Prod.snd).sum = okHours w ∧
        (merge_hours_to_day base year month day
            { dailyExists := false, hour := w }).result =
          Except.ok (dailyOutputPath base year month day)) ∧
    (okHours w = 0 →
      (load_zarr_data_for_day w).result = Except.error "No datasets could be loaded" ∧
      (merge_hours_to_day base year month day
          { dailyExists := false, hour := w }).result =
        Except.error "No datasets could be loaded") := by
  have hlen := length_pieces_eq_countLoaded w (List.range 24)
  constructor
  · intro hk
    have hne : ((List.range 24).filterMap (fun h => (w h).piece h)).isEmpty = false := by
      rw [List.isEmpty_eq_false_iff_exists_mem]
      have : 0 < ((List.range 24).filterMap (fun h => (w h).piece h)).length := by
        rw [hlen]; exact hk
      exact List.exists_mem_of_length_pos this
    have hres : (load_zarr_data_for_day w).result =
        Except.ok ((List.range 24).filterMap (fun h => (w h).piece h)) := by
      simp [load_zarr_data_for_day, hne]
    refine ⟨(List.range 24).filterMap (fun h => (w h).piece h), hres, hlen, ?_, ?_⟩
    · rw [sum_ones _ (fun p hp => hone p.1 p.2 (mem_pieces_ok w _ p hp))]
      exact hlen
    · simp [merge_hours_to_day, hres]
  · intro hk
    have hempty : ((List.range 24).filterMap (fun h => (w h).piece h)).isEmpty = true := by
      rw [List.isEmpty_iff_length_eq_zero, hlen]
      exact hk
    have hres : (load_zarr_data_for_day w).result =
        Except.error "No datasets could be loaded" := by
      simp [load_zarr_data_for_day, hempty]
    exact ⟨hres, by simp [merge_hours_to_day, hres]⟩

/-- Witness for C3 at the 18-of-24-hours world. -/
theorem day_consolidation_partial_hours_witness :
    (∀ h n, hoursWorld18 h = HourOutcome.ok n → n = 1) ∧
    1 ≤ okHours hoursWorld18 ∧
    ∃ pieces, (load_zarr_data_for_day hoursWorld18).result = Except.ok pieces ∧
      pieces.length = okHours hoursWorld18 ∧
      (pieces.map Prod.snd).sum = okHours hoursWorld18 ∧
      (merge_hours_to_day "data" 2023 12 1
          { dailyExists := false, hour := hoursWorld18 }).result =
        Except.ok (dailyOutputPath "data" 2023 12 1) := by
  have hone : ∀ h n, hoursWorld18 h = HourOutcome.ok n → n = 1 := by
    intro h n hn
    unfold hoursWorld18 at hn
    split at hn
    · exact (HourOutcome.ok.inj hn).symm
    · cases hn
  exact ⟨hone, by decide,
    (day_consolidation_partial_hours "data" 2023 12 1 hoursWorld18 hone).1 (by decide)⟩

/-! ### C10: consolidation sources are enumerated in ascending partition-key
order

Day level: `load_zarr_data_for_day` iterates `range(24)` in ascending
order, so the concatenation pieces carry strictly increasing hours.  Month
level: `merge_days_to_month` sorts the globbed paths lexicographically;
since a day is rendered `f"{day:02d}"` (two fixed-width digits), the
lexicographic order of the daily archive paths is the numeric order of the
days. -/

theorem twoLtChars :
    ∀ a, a < 32 → ∀ b, b < 32 → a < b →
      ((digitChar (a / 10)).toNat < (digitChar (b / 10)).toNat ∨
        (digitChar (a / 10) = digitChar (b / 10) ∧
          (digitChar a).toNat < (digitChar b).toNat)) := by
  decide

theorem charLt_two_append (a b : Nat) (ha : a < 32) (hb : b < 32) (hab : a < b)
    (r r' : List Char) :
    charLt ((two a).data ++ r) ((two b).data ++ r') = true := by
  show charLt (digitChar (a / 10) :: digitChar a :: r)
    (digitChar (b / 10) :: digitChar b :: r') = true
  rcases twoLtChars a ha b hb hab with h1 | ⟨heq, h2⟩
  · simp [charLt, h1]
  · rw [heq]
    simp [charLt, Nat.lt_irrefl, h2]

theorem charLt_asymm : ∀ l m : List Char, charLt l m = true → charLt m l = false := by
  intro l
  induction l with
  | nil =>
    intro m h
    cases m with
    | nil => simp [charLt] at h
    | cons y ys => simp [charLt]
  | cons x xs ih =>
    intro m h
    cases m with
    | nil => simp [charLt] at h
    | cons y ys =>
      rcases Nat.lt_trichotomy x.toNat y.toNat with hlt | heq | hgt
      · simp [charLt, hlt, Nat.lt_asymm hlt]
      · simp only [charLt, heq, Nat.lt_irrefl, if_false] at h ⊢
        exact ih ys h
      · simp [charLt, hgt, Nat.lt_asymm hgt] at h

theorem dailyRelPath_data_decomp (year month d : Nat) :
    (dailyRelPath year month d).data =
      (two d).data ++
        ("/daily/" ++ toString year ++ "-" ++ two month ++ "-" ++ two d ++
          ".zarr.zip").data := by
  simp [dailyRelPath, String.data_append, List.append_assoc]

theorem dailyRelPath_lt (year month a b : Nat) (ha : a < 32) (hb : b < 32)
    (hab : a < b) :
    charLt (dailyRelPath year month a).data (dailyRelPath year month b).data = true := by
  rw [dailyRelPath_data_decomp year month a, dailyRelPath_data_decomp year month b]
  exact charLt_two_append a b ha hb hab _ _

theorem lt_of_dailyRelPath_lt (year month a b : Nat) (ha : a < 32) (hb : b < 32)
    (hne : a ≠ b)
    (h : charLt (dailyRelPath year month a).data (dailyRelPath year month b).data = true) :
    a < b := by
  rcases Nat.lt_trichotomy a b with hlt | heq | hgt
  · exact hlt
  · exact absurd heq hne
  · have hba := dailyRelPath_lt year month b a hb ha hgt
    have hasym := charLt_asymm _ _ hba
    rw [h] at hasym
    cases hasym

theorem mem_insertByPath (year month d x : Nat) (l : List Nat) :
    x ∈ insertByPath year month d l ↔ x = d ∨ x ∈ l := by
  induction l with
  | nil => simp [insertByPath]
  | cons e es ih =>
    simp only [insertByPath]
    split
    · simp [List.mem_cons]
    · simp only [List.mem_cons, ih]
      tauto

theorem pairwise_insertByPath (year month d : Nat) (l : List Nat) (hd : d < 32)
    (hl : ∀ x ∈ l, x < 32) (hnd : d ∉ l) (hp : List.Pairwise (· < ·) l) :
    List.Pairwise (· < ·) (insertByPath year month d l) := by
  induction l with
  | nil => simp [insertByPath]
  | cons e es ih =>
    obtain ⟨he, hp'⟩ := List.pairwise_cons.mp hp
    have hde : d ≠ e := fun hcon => hnd (by simp [hcon])
    simp only [insertByPath]
    split
    · rename_i hcond
      have hdlt : d < e :=
        lt_of_dailyRelPath_lt year month d e hd (hl e (by simp)) hde hcond
      refine List.pairwise_cons.mpr ⟨?_, hp⟩
      intro x hx
      rcases List.mem_cons.mp hx with rfl | hx'
      · exact hdlt
      · exact Nat.lt_trans hdlt (he x hx')
    · rename_i hcond
      have hed : e < d := by
        rcases Nat.lt_trichotomy d e with hlt | heq | hgt
        · exact absurd (dailyRelPath_lt year month d e hd (hl e (by simp)) hlt) hcond
        · exact absurd heq hde
        · exact hgt
      refine List.pairwise_cons.mpr ⟨?_, ?_⟩
      · intro x hx
        rcases (mem_insertByPath year month d x es).mp hx with rfl | hx'
        · exact hed
        · exact he x hx'
      · exact ih (fun x hx => hl x (by simp [hx]))
          (fun hmem => hnd (by simp [hmem])) hp'

theorem mem_sortDaysByPath (year month x : Nat) (l : List Nat) :
    x ∈ sortDaysByPath year month l ↔ x ∈ l := by
  induction l with
  | nil => simp [sortDaysByPath]
  | cons d ds ih => simp [sortDaysByPath, mem_insertByPath, ih]

theorem sortDaysByPath_sorted (year month : Nat) (l : List Nat)
    (hl : ∀ x ∈ l, x < 32) (hnd : l.Nodup) :
    List.Pairwise (· < ·) (sortDaysByPath year month l) := by
  induction l with
  | nil => simp [sortDaysByPath]
  | cons d ds ih =>
    obtain ⟨hd1, hnd'⟩ := List.nodup_cons.mp hnd
    exact pairwise_insertByPath year month d _ (hl d (by simp))
      (fun x hx => hl x (by simp [(mem_sortDaysByPath year month x ds).mp hx]))
      (fun hmem => hd1 ((mem_sortDaysByPath year month d ds).mp hmem))
      (ih (fun x hx => hl x (by simp [hx])) hnd')

theorem monthLoop_pieces_sublist (f : Nat → DayFileOutcome) :
    ∀ (days : List Nat) (st : MonthLoopState),
      ∃ ext, (monthLoop f days st).pieces = st.pieces ++ ext ∧
        List.Sublist (ext.map Prod.fst) days := by
  intro days
  induction days with
  | nil => exact fun st => ⟨[], by simp [monthLoop], List.nil_sublist _⟩
  | cons d ds ih =>
    intro st
    rcases hfd : f d with _ | _ | n
    · rcases hls : st.lastStore with _ | p
      · exact ⟨[], by simp [monthLoop, hfd, hls], List.nil_sublist _⟩
      · obtain ⟨ext, hext, hsub⟩ := ih
          { closes := bumpClose p st.closes,
            lastStore := some p,
            pieces := st.pieces,
            nameError := st.nameError }
        exact ⟨ext, by simp [monthLoop, hfd, hls, hext], hsub.cons d⟩
    · obtain ⟨ext, hext, hsub⟩ := ih
        { st with
            closes := bumpClose d (st.closes ++ [(d, 0)]),
            lastStore := some d }
      exact ⟨ext, by simp [monthLoop, hfd, hext], hsub.cons d⟩
    · obtain ⟨ext, hext, hsub⟩ := ih
        { st with
            closes := st.closes ++ [(d, 0)],
            lastStore := some d,
            pieces := st.pieces ++ [(d, n)] }
      refine ⟨(d, n) :: ext, ?_, ?_⟩
      · simp [monthLoop, hfd, hext]
      · simpa using hsub.cons₂ d

theorem mapFst_pieces_eq_filter (w : Nat → HourOutcome) (l : List Nat) :
    (l.filterMap (fun h => (w h).piece h)).map Prod.fst =
      l.filter (fun h => (w h).isLoaded) := by
  induction l with
  | nil => rfl
  | cons h l ih =>
    simp only [List.filterMap_cons, List.filter_cons]
    simp only [HourOutcome.piece, HourOutcome.isLoaded] at ih ⊢
    rcases w h with _ | _ | n <;> simp [ih]

/-- C10: (day level) the pieces `load_zarr_data_for_day` hands to the time
concatenation carry strictly increasing hours — hours are visited 0..23 in
ascending order and skipped hours preserve the order; (month level) the
daily-file load order is the lexicographic path sort, which for calendar
days (`d < 32`, no duplicates) is strictly increasing in the day, and the
pieces handed to the time concatenation inherit that ascending order. -/
theorem consolidation_sources_ascending :
    (∀ (w : Nat → HourOutcome) (pieces : List (Nat × Nat)),
      (load_zarr_data_for_day w).result = Except.ok pieces →
      List.Pairwise (· < ·) (pieces.map Prod.fst)) ∧
    (∀ (year month : Nat) (w : MonthWorld),
      (∀ d ∈ w.presentDays, d < 32) → w.presentDays.Nodup →
      List.Pairwise (· < ·) (sortDaysByPath year month w.presentDays) ∧
      List.Pairwise (· < ·) ((monthConcatPieces year month w).map Prod.fst)) := by
  constructor
  · intro w pieces hres
    dsimp only [load_zarr_data_for_day] at hres
    split at hres
    · cases hres
    · obtain rfl : _ = pieces := Except.ok.inj hres
      rw [mapFst_pieces_eq_filter]
      exact (List.pairwise_lt_range 24).filter _
  · intro year month w hbound hnd
    have hsorted := sortDaysByPath_sorted year month w.presentDays hbound hnd
    refine ⟨hsorted, ?_⟩
    obtain ⟨ext, hext, hsub⟩ := monthLoop_pieces_sublist w.dayFile
      (sortDaysByPath year month w.presentDays)
      { closes := [], lastStore := none, pieces := [], nameError := false }
    unfold monthConcatPieces
    rw [hext]
    simp only [List.nil_append]
    exact hsorted.sublist hsub

/-- Witness for C10 at a month whose glob finds days 12, 3, 25 (in that
filesystem order): the load order is 3, 12, 25. -/
theorem consolidation_sources_ascending_witness :
    (∀ d ∈ monthWorld3Days.presentDays, d < 32) ∧
    monthWorld3Days.presentDays.Nodup ∧
    (List.Pairwise (· < ·) (sortDaysByPath 2024 1 monthWorld3Days.presentDays) ∧
      List.Pairwise (· < ·) ((monthConcatPieces 2024 1 monthWorld3Days).map Prod.fst)) :=
  ⟨by decide, by decide,
    consolidation_sources_ascending.2 2024 1 monthWorld3Days (by decide) (by decide)⟩

end OpenDataPvnet
